import Mathlib

/-!
Shallow embedding of the combat and spatial-reasoning engine of a grid-based
tactics game (TypeScript source: a zustand game store plus grid/dice utility
modules), together with theorems settling the specification claims about it.

Conventions of the embedding:
* JavaScript numbers are embedded as Int (all arithmetic in the embedded code
  is integer arithmetic), fractional coordinates as exact integer fractions
  with an explicit positive denominator.
* Randomness (Math.random behind rollDice / rollD20) is embedded as oracle
  functions supplying the die results.
* Presentation-only state (combat log text, animation fields, selection /
  hover UI state) is omitted; no claim concerns it.
* While-loops of the source carry an explicit fuel argument that dominates
  the loop bound of the source.
-/

namespace Grudge

/-- Grid side length, the GRID_SIZE constant of the source. -/
def GRID_SIZE : Int := 8

/-- Action budget granted at the start of a turn, the ACTIONS_PER_TURN constant. -/
def ACTIONS_PER_TURN : Int := 3

/-- Integer grid coordinate, the Position record of the source. -/
structure Position where
  x : Int
  y : Int
deriving DecidableEq, Repr

/-- Terrain kind of one cell, the CellType union of the source. -/
inductive CellType
  | floor
  | wall
  | crate
  | door
deriving DecidableEq, Repr

/-- Grid of cells, indexed grid[y][x] as in the source. -/
abbrev Grid := List (List CellType)

/-- Reading grid[y][x]. Every call site in the source guards the indices with
bounds checks first, so the default value is never reached there. -/
def cellAt (g : Grid) (x y : Int) : CellType :=
  (g.getD y.toNat []).getD x.toNat CellType.floor

/-- Bounds test 0 <= x < GRID_SIZE and 0 <= y < GRID_SIZE used by the source. -/
def inBounds (x y : Int) : Bool :=
  decide (0 ≤ x) && decide (x < GRID_SIZE) && decide (0 ≤ y) && decide (y < GRID_SIZE)

/-- Chebyshev distance, calculateDistance of gridUtils:
max of the absolute coordinate differences. -/
def calculateDistance (a b : Position) : Int :=
  max |a.x - b.x| |a.y - b.y|

/-- Status-effect tag, the closed string union of the source types module. -/
inductive EffectKind
  | shieldWall
  | aimed
  | defending
  | prone
  | shieldRaised
  | takingCover
  | braced
  | precisionDrilling
  | combatBrewDamage
  | takingCoverEnhanced
deriving DecidableEq, Repr

/-- StatusEffect record of the source: tag, magnitude, remaining duration in
rounds (duration -1 is used by dropProneAction as the until-cleared sentinel). -/
structure StatusEffect where
  type : EffectKind
  value : Int
  duration : Int
deriving DecidableEq, Repr

/-- Allegiance class of a unit, the UnitType union of the source. -/
inductive UnitType
  | dwarf
  | enemy
  | turret
deriving DecidableEq, Repr

/-- Modelled from the spec: the weapon special-property tags read from the
class stat tables (the constants module defining the stat tables with their
special arrays is not under src/; part_006 reads attackerStats.special and
tests for the tags named splash and line, and the spec describes exactly the
splash-tagged and line-tagged weapon behaviours). -/
inductive SpecialTag
  | splash
  | line
deriving DecidableEq, Repr

/-- Unit record of the source (log/animation fields omitted). The special
field carries the special-property tags the source looks up in the class stat
table for this unit's class. -/
structure Unit where
  id : Nat
  type : UnitType
  position : Position
  hp : Int
  maxHp : Int
  ac : Int
  speed : Int
  attackBonus : Int
  damage : String
  rangeWeapon : Option Int := none
  currentAmmo : Option Int := none
  maxAmmo : Option Int := none
  actionsRemaining : Int
  strikesThisTurn : Nat := 0
  isActive : Bool := false
  statusEffects : List StatusEffect := []
  special : List SpecialTag := []
deriving DecidableEq, Repr

/-- Game phase, the phase union of the source GameState. -/
inductive Phase
  | placement
  | combat
  | victory
  | defeat
deriving DecidableEq, Repr

/-- Engine-relevant part of the source GameState (combat log, selection and
hover UI state, lastCombat and revealedCells omitted as presentation-only). -/
structure GState where
  units : List Unit
  grid : Grid
  turnOrder : List Nat
  currentUnitId : Option Nat
  round : Int
  phase : Phase
deriving DecidableEq, Repr

/-- Mutation of the first unit matching a predicate, mirroring the source
pattern of state.units.find followed by in-place mutation of the found unit. -/
def updateFirst (us : List Unit) (p : Unit → Bool) (f : Unit → Unit) : List Unit :=
  match us with
  | [] => []
  | u :: rest => if p u then f u :: rest else u :: updateFirst rest p f

/-! ### Dice utilities (diceUtils module) -/

/-- Decimal-digit test for the character class of the dice regex. -/
def isDigitCh (c : Char) : Bool := decide ('0' ≤ c) && decide (c ≤ '9')

/-- Decimal value of a digit group, as parseInt computes it on a digit string. -/
def digitsVal (l : List Char) : Nat :=
  l.foldl (fun a c => 10 * a + (c.toNat - '0'.toNat)) 0

/-- Matcher for the dice regex of rollDamage: start anchor, one or more
digits, the letter d (case-insensitive flag), one or more digits, an optional
group of a plus sign and one or more digits, end anchor. Returns the parsed
(count, sides, bonus), with bonus 0 when the optional group is absent. -/
def parseDiceString (s : String) : Option (Nat × Nat × Nat) :=
  let cs := s.toList
  let a := cs.span isDigitCh
  if a.1.isEmpty then none else
  match a.2 with
  | [] => none
  | c :: r2 =>
    if c = 'd' ∨ c = 'D' then
      let b := r2.span isDigitCh
      if b.1.isEmpty then none else
      match b.2 with
      | [] => some (digitsVal a.1, digitsVal b.1, 0)
      | '+' :: r4 =>
        let d := r4.span isDigitCh
        if d.1.isEmpty then none else
        match d.2 with
        | [] => some (digitsVal a.1, digitsVal b.1, digitsVal d.1)
        | _ => none
      | _ => none
    else none

/-- Result record of rollDamage: individual die results, flat bonus, total. -/
structure DamageResult where
  rolls : List Int
  bonus : Int
  total : Int
deriving DecidableEq, Repr

/-- rollDamage of diceUtils. The die oracle supplies the i-th die result of
the rollDice call (the source draws it uniformly from 1..sides). On a string
the dice regex rejects, the source logs an error and returns the fallback
record with rolls [1], bonus 0 and total 1; it does not throw. -/
def rollDamage (die : Nat → Int) (diceString : String) : DamageResult :=
  match parseDiceString diceString with
  | none => ⟨[1], 0, 1⟩
  | some (count, _sides, bonus) =>
    let rolls := (List.range count).map die
    ⟨rolls, (bonus : Int), rolls.sum + (bonus : Int)⟩

/-- isCriticalHit of diceUtils: natural 20, or total at least targetAC + 10. -/
def isCriticalHit (roll total targetAC : Int) : Bool :=
  roll == 20 || decide (total ≥ targetAC + 10)

/-- Modelled from the spec: the MAP_PENALTIES constant is imported by the
store from the constants module, but no constants file under src/ defines it;
the spec gives the multiple-attack penalty schedule as 0 on the first strike,
-5 on the second, -10 on the third and beyond. -/
def MAP_PENALTIES : List Int := [0, -5, -10]

/-- Penalty lookup of attackUnit and executeLineAttack:
MAP_PENALTIES[Math.min(strikesThisTurn, MAP_PENALTIES.length - 1)]. -/
def mapPenaltyForStrikes (strikesThisTurn : Nat) : Int :=
  MAP_PENALTIES.getD (min strikesThisTurn (MAP_PENALTIES.length - 1)) 0

/-- Damage-total adjustment of attackUnit, factored verbatim from its hit
branch: the combat-brew flat buff is added to damageResult.total first, and a
critical hit then doubles damageResult.total. -/
def applyDamageEffects (rolledTotal : Int) (combatBrew : Option Int) (critical : Bool) : Int :=
  let withBrew :=
    match combatBrew with
    | some v => rolledTotal + v
    | none => rolledTotal
  if critical then withBrew * 2 else withBrew

/-! ### Integer grid utilities (gridUtils module) -/

/-- The eight direction vectors enumerated by the source, in its order. -/
def directionsList : List Position :=
  [⟨-1, -1⟩, ⟨0, -1⟩, ⟨1, -1⟩, ⟨-1, 0⟩, ⟨1, 0⟩, ⟨-1, 1⟩, ⟨0, 1⟩, ⟨1, 1⟩]

/-- getAdjacentPositions: the eight neighbours clipped to grid bounds. -/
def getAdjacentPositions (pos : Position) : List Position :=
  directionsList.filterMap fun dir =>
    let newX := pos.x + dir.x
    let newY := pos.y + dir.y
    if inBounds newX newY then some ⟨newX, newY⟩ else none

/-- Loop body of the Bresenham walk shared by the line functions: one
iteration updates err, x, y exactly as the source does (the first branch may
move x and change err, the second uses the same e2 but the updated err). -/
def bresenhamStep (dx dy sx sy err x y : Int) : Int × Int × Int :=
  let e2 := 2 * err
  let err1 := if e2 > -dy then err - dy else err
  let x1 := if e2 > -dy then x + sx else x
  let err2 := if e2 < dx then err1 + dx else err1
  let y1 := if e2 < dx then y + sy else y
  (err2, x1, y1)

/-- Loop of getLineOfSight. Fuel dominates the iteration count of the while
loop (it takes at most |dx| + |dy| iterations); the fuel-exhausted value is
never reached from the wrapper below. -/
def getLineOfSightGo (fr tgt : Position) (g : Grid) (dx dy sx sy : Int) :
    Nat → Int → Int → Int → Bool
  | 0, _, _, _ => true
  | fuel + 1, err, x, y =>
    if x = tgt.x ∧ y = tgt.y then true
    else if ¬(x = fr.x ∧ y = fr.y) ∧ cellAt g x y = CellType.wall then false
    else
      let s := bresenhamStep dx dy sx sy err x y
      getLineOfSightGo fr tgt g dx dy sx sy fuel s.1 s.2.1 s.2.2

/-- getLineOfSight of gridUtils: Bresenham walk from one cell to the other;
walls block sight except at the two endpoint cells. -/
def getLineOfSight (fr tgt : Position) (g : Grid) : Bool :=
  let dx := |tgt.x - fr.x|
  let dy := |tgt.y - fr.y|
  let sx : Int := if fr.x < tgt.x then 1 else -1
  let sy : Int := if fr.y < tgt.y then 1 else -1
  getLineOfSightGo fr tgt g dx dy sx sy (dx.toNat + dy.toNat + 1) (dx - dy) fr.x fr.y

/-- Loop of the deprecated getCoverInfo trace: step first, then record crate
(2) or wall (4) penalties on cells other than the two endpoints. -/
def getCoverInfoGo (fr tgt : Position) (g : Grid) (dx dy sx sy : Int) :
    Nat → Int → Int → Int → Int → Int
  | 0, _, _, _, acc => acc
  | fuel + 1, err, x, y, acc =>
    if x = tgt.x ∧ y = tgt.y then acc
    else
      let s := bresenhamStep dx dy sx sy err x y
      let x1 := s.2.1
      let y1 := s.2.2
      let acc1 :=
        if ¬(x1 = fr.x ∧ y1 = fr.y) ∧ ¬(x1 = tgt.x ∧ y1 = tgt.y) then
          if cellAt g x1 y1 = CellType.crate then max acc 2
          else if cellAt g x1 y1 = CellType.wall then max acc 4
          else acc
        else acc
      getCoverInfoGo fr tgt g dx dy sx sy fuel s.1 x1 y1 acc1

/-- getAdjacentCoverBonus of gridUtils: bonus from the up-to-three cells next
to the target on the attacker's side (crate 1, wall 2). -/
def getAdjacentCoverBonus (target attacker : Position) (g : Grid) : Int :=
  let dx := attacker.x - target.x
  let dy := attacker.y - target.y
  let dirX : Int := if dx = 0 then 0 else if dx > 0 then 1 else -1
  let dirY : Int := if dy = 0 then 0 else if dy > 0 then 1 else -1
  let coverPositions : List Position :=
    [⟨target.x - dirX, target.y⟩, ⟨target.x, target.y - dirY⟩,
     ⟨target.x - dirX, target.y - dirY⟩]
  coverPositions.foldl
    (fun maxBonus pos =>
      if inBounds pos.x pos.y then
        if cellAt g pos.x pos.y = CellType.crate then max maxBonus 1
        else if cellAt g pos.x pos.y = CellType.wall then max maxBonus 2
        else maxBonus
      else maxBonus)
    0

/-- Deprecated getCoverInfo of gridUtils, still called (through
getCoverPenalty) by executeLineAttack: highest of the traced-path penalty and
the adjacent-cover bonus, collapsed to the 0 / 2 / 4 ladder. -/
def getCoverInfo (fr tgt : Position) (g : Grid) : Int :=
  let dx := |tgt.x - fr.x|
  let dy := |tgt.y - fr.y|
  let sx : Int := if fr.x < tgt.x then 1 else -1
  let sy : Int := if fr.y < tgt.y then 1 else -1
  let traced := getCoverInfoGo fr tgt g dx dy sx sy (dx.toNat + dy.toNat + 1) (dx - dy) fr.x fr.y 0
  let maxCoverPenalty := max traced (getAdjacentCoverBonus tgt fr g)
  if maxCoverPenalty ≥ 4 then 4
  else if maxCoverPenalty ≥ 2 then 2
  else 0

/-- getCoverPenalty of gridUtils: the penalty field of getCoverInfo. -/
def getCoverPenalty (fr tgt : Position) (g : Grid) : Int :=
  getCoverInfo fr tgt g

/-- Loop of getLinePositions: step first, then record the reached cell when
it is in bounds (the target cell included, the start cell skipped). -/
def getLinePositionsGo (tgt : Position) (dx dy sx sy : Int) :
    Nat → Int → Int → Int → List Position → List Position
  | 0, _, _, _, acc => acc
  | fuel + 1, err, x, y, acc =>
    if x = tgt.x ∧ y = tgt.y then acc
    else
      let s := bresenhamStep dx dy sx sy err x y
      let x1 := s.2.1
      let y1 := s.2.2
      let acc1 := if inBounds x1 y1 then acc ++ [(⟨x1, y1⟩ : Position)] else acc
      getLinePositionsGo tgt dx dy sx sy fuel s.1 x1 y1 acc1

/-- getLinePositions of gridUtils: every cell of the Bresenham line after the
attacker cell, used by executeLineAttack. -/
def getLinePositions (fr tgt : Position) : List Position :=
  let dx := |tgt.x - fr.x|
  let dy := |tgt.y - fr.y|
  let sx : Int := if fr.x < tgt.x then 1 else -1
  let sy : Int := if fr.y < tgt.y then 1 else -1
  getLinePositionsGo tgt dx dy sx sy (dx.toNat + dy.toNat + 1) (dx - dy) fr.x fr.y []

/-- One dequeue step of the getMovementRange breadth-first search. The queue
is FIFO (queue.shift), visited cells are recorded when dequeued, the start
cell is excluded from the result, and a dequeued entry at distance >= speed
is not expanded. Neighbour pushes keep the source's direction order and carry
distance + cost with cost 2 on crates and 1 otherwise; pushes beyond speed
are dropped. Fuel dominates the total number of dequeues. -/
def getMovementRangeGo (start : Position) (speed : Int) (g : Grid) (units : List Unit) :
    Nat → List (Position × Int) → List Position → List Position → List Position
  | 0, _, _, validMoves => validMoves
  | _, [], _, validMoves => validMoves
  | fuel + 1, (pos, distance) :: rest, visited, validMoves =>
    if visited.contains pos then
      getMovementRangeGo start speed g units fuel rest visited validMoves
    else
      let visited1 := pos :: visited
      let validMoves1 := if pos = start then validMoves else validMoves ++ [pos]
      if distance ≥ speed then
        getMovementRangeGo start speed g units fuel rest visited1 validMoves1
      else
        let pushes := directionsList.filterMap fun dir =>
          let newX := pos.x + dir.x
          let newY := pos.y + dir.y
          if ¬ inBounds newX newY then none
          else if cellAt g newX newY = CellType.wall then none
          else if units.any fun u =>
              u.position.x == newX && u.position.y == newY && decide (u.hp > 0) then none
          else
            let cost : Int := if cellAt g newX newY = CellType.crate then 2 else 1
            let newDistance := distance + cost
            if newDistance ≤ speed then some ((⟨newX, newY⟩ : Position), newDistance) else none
        getMovementRangeGo start speed g units fuel (rest ++ pushes) visited1 validMoves1

/-- getMovementRange of gridUtils: FIFO breadth-first expansion with terrain
costs, walls and living units impassable. Fuel 1000 dominates the dequeue
count (at most 8 pushes per each of the at most 65 expanded cells). -/
def getMovementRange (start : Position) (speed : Int) (g : Grid) (units : List Unit) :
    List Position :=
  getMovementRangeGo start speed g units 1000 [(start, 0)] [] []

/-! ### Reachability (specification side, for judging getMovementRange) -/

/-- Cost of entering a cell: 2 on a crate, 1 otherwise, as in the source. -/
def stepEntryCost (g : Grid) (p : Position) : Int :=
  if cellAt g p.x p.y = CellType.crate then 2 else 1

/-- Validity of one 8-connected step into an in-bounds, non-wall cell not
occupied by a living unit, the movement rule of the source. -/
def stepOK (g : Grid) (units : List Unit) (p q : Position) : Bool :=
  calculateDistance p q == 1 && inBounds q.x q.y &&
    !(cellAt g q.x q.y == CellType.wall) &&
    !(units.any fun u => u.position == q && decide (u.hp > 0))

/-- Validity of a whole path of successive steps from a start cell. -/
def pathOK (g : Grid) (units : List Unit) : Position → List Position → Bool
  | _, [] => true
  | p, q :: rest => stepOK g units p q && pathOK g units q rest

/-- Accumulated entry cost of a path (the start cell costs nothing). -/
def pathCost (g : Grid) (l : List Position) : Int :=
  (l.map (stepEntryCost g)).sum

/-! ### Fractional line tracing (the corner / cover system of gridUtils)

A fractional point is embedded exactly as a pair of integer numerators over a
shared positive denominator D (the source only ever uses hundredths for the
inset corners and halves for cell centers; a general D covers every rational
point). All arithmetic of the source on these points is exact in this model. -/

/-- Linear search for the least n with m <= (n * D)^2, which for m >= 0 and
D > 0 is the ceiling of the square root of m divided by D. Fuel dominates the
answer, and the search stops at the first hit. -/
def stepsSearch (m D : Int) : Nat → Nat → Nat
  | n, 0 => n
  | n, fuel + 1 => if m ≤ ((n : Int) * D) ^ 2 then n else stepsSearch m D (n + 1) fuel

/-- Step count of traceLineFractional: Math.ceil(distance * 8) where distance
is the Euclidean length of the segment. With endpoints given as numerators
over D this is the least n with 64 * (dx^2 + dy^2) <= (n * D)^2. -/
def stepsFor (D dx dy : Int) : Nat :=
  stepsSearch (64 * (dx ^ 2 + dy ^ 2)) D 0 ((64 * (dx ^ 2 + dy ^ 2)).toNat + 2)

/-- Math.floor of the fraction a / b (for b > 0 Int.fdiv is the real floor). -/
def floorFrac (a b : Int) : Int := a.fdiv b

/-- Math.round of the fraction a / b: JavaScript rounds half toward positive
infinity, round(q) = floor(q + 1/2), which for b > 0 is floor((2a+b)/(2b)). -/
def jsRoundFrac (a b : Int) : Int := (2 * a + b).fdiv (2 * b)

/-- Cells contributed by one sample point (nx / den, ny / den) of the
traceLineFractional loop: the rounded cell Math.round(coordinate - 0.5), then
the floored cell, each kept only inside grid bounds, in source order. -/
def sampleCells (nx ny den : Int) : List (Int × Int) :=
  let gridX := jsRoundFrac (2 * nx - den) (2 * den)
  let gridY := jsRoundFrac (2 * ny - den) (2 * den)
  let floorX := floorFrac nx den
  let floorY := floorFrac ny den
  (if inBounds gridX gridY then [(gridX, gridY)] else []) ++
    (if inBounds floorX floorY then [(floorX, floorY)] else [])

/-- Candidate cells of the i-th sample of the line from (fx/D, fy/D) with
difference vector (dx/D, dy/D): the sample point is at parameter i / s, so
its coordinates have numerator fx * s + dx * i over denominator D * s. -/
def traceCandidates (D fx fy dx dy : Int) (s i : Nat) : List (Int × Int) :=
  sampleCells (fx * s + dx * i) (fy * s + dy * i) (D * s)

/-- Append-if-new, the JavaScript Set insertion order on cell keys. -/
def insertCell (acc : List (Int × Int)) (c : Int × Int) : List (Int × Int) :=
  if c ∈ acc then acc else acc ++ [c]

/-- traceLineFractional of gridUtils on exact fractional endpoints
(fx/D, fy/D) and (tx/D, ty/D): high-resolution sampling of the segment,
collecting for every sample the rounded and the floored cell into an
insertion-ordered set. When the step count is zero (coincident endpoints) the
source divides 0 by 0, every sample is NaN and no cell is collected. -/
def traceLineFractional (D fx fy tx ty : Int) : List (Int × Int) :=
  let dx := tx - fx
  let dy := ty - fy
  let s := stepsFor D dx dy
  if s = 0 then []
  else
    (List.range (s + 1)).foldl
      (fun acc i => (traceCandidates D fx fy dx dy s i).foldl insertCell acc) []

/-- isLineClear of gridUtils: the traced line contains no wall cell other
than the cells holding the two endpoints. -/
def isLineClear (D fx fy tx ty : Int) (g : Grid) : Bool :=
  (traceLineFractional D fx fy tx ty).all fun c =>
    !(!(floorFrac fx D == c.1 && floorFrac fy D == c.2) &&
      !(floorFrac tx D == c.1 && floorFrac ty D == c.2) &&
      cellAt g c.1 c.2 == CellType.wall)

/-- getCorners of gridUtils: the four corners of a cell inset by 0.01, as
numerators over denominator 100. -/
def getCorners (p : Position) : List (Int × Int) :=
  [(100 * p.x + 1, 100 * p.y + 1), (100 * p.x + 99, 100 * p.y + 1),
   (100 * p.x + 1, 100 * p.y + 99), (100 * p.x + 99, 100 * p.y + 99)]

/-- hasLineOfSight of gridUtils: sight holds when any of the sixteen
corner-to-corner lines is clear of walls. -/
def hasLineOfSight (fr tgt : Position) (g : Grid) : Bool :=
  (getCorners fr).any fun fc =>
    (getCorners tgt).any fun tc => isLineClear 100 fc.1 fc.2 tc.1 tc.2 g

/-- Numerator pair of getCenter over denominator 2: the cell center. -/
def getCenter (p : Position) : Int × Int := (2 * p.x + 1, 2 * p.y + 1)

/-- Cover tier, the CoverType union of the source. -/
inductive CoverType
  | none
  | lesser
  | standard
  | greater
deriving DecidableEq, Repr

/-- Source tag of a cover bonus, the source field of CoverInfo. -/
inductive CoverSource
  | terrain
  | creature
  | action
  | none
deriving DecidableEq, Repr

/-- CoverInfo record of the source: tier, AC bonus, source of the bonus. -/
structure CoverInfo where
  type : CoverType
  bonus : Int
  source : CoverSource
deriving DecidableEq, Repr

/-- Terrain pass of the getCover loop on one traced cell: crates and doors
grant standard cover unless the attacker is adjacent to the cell while the
target is not; walls crossed by the center line grant greater cover; the cells
holding attacker and target are skipped. -/
def getCoverTerrainStep (attacker target : Position) (g : Grid)
    (mc : CoverInfo) (c : Int × Int) : CoverInfo :=
  let isStart := c.1 = attacker.x ∧ c.2 = attacker.y
  let isEnd := c.1 = target.x ∧ c.2 = target.y
  if isStart ∨ isEnd then mc
  else
    let gridCell := cellAt g c.1 c.2
    if gridCell = CellType.crate ∨ gridCell = CellType.door then
      let attackerAdjacent := calculateDistance attacker ⟨c.1, c.2⟩ = 1
      let targetAdjacent := calculateDistance target ⟨c.1, c.2⟩ = 1
      if attackerAdjacent ∧ ¬targetAdjacent then mc
      else if mc.bonus < 2 then ⟨CoverType.standard, 2, CoverSource.terrain⟩ else mc
    else if gridCell = CellType.wall then
      if mc.bonus < 4 then ⟨CoverType.greater, 4, CoverSource.terrain⟩ else mc
    else mc

/-- Creature pass of the getCover loop on one traced cell: a living unit
other than the attacker and target units grants lesser cover, with no
adjacency rule; the cells holding attacker and target are skipped. -/
def getCoverCreatureStep (attacker target : Position) (units : List Unit)
    (attackerUnit targetUnit : Option Unit) (mc : CoverInfo) (c : Int × Int) : CoverInfo :=
  let isStart := c.1 = attacker.x ∧ c.2 = attacker.y
  let isEnd := c.1 = target.x ∧ c.2 = target.y
  if isStart ∨ isEnd then mc
  else
    let unitInCell := units.any fun u =>
      u.position.x == c.1 && u.position.y == c.2 && decide (u.hp > 0) &&
        !(match attackerUnit with
          | some au => u.id == au.id
          | Option.none => false) &&
        !(match targetUnit with
          | some tu => u.id == tu.id
          | Option.none => false)
    if unitInCell then
      if mc.bonus < 1 then ⟨CoverType.lesser, 1, CoverSource.creature⟩ else mc
    else mc

/-- Cells of the center-to-center line getCover traces. -/
def coverPathCells (attacker target : Position) : List (Int × Int) :=
  let fromCenter := getCenter attacker
  let toCenter := getCenter target
  traceLineFractional 2 fromCenter.1 fromCenter.2 toCenter.1 toCenter.2

/-- getCover of gridUtils: center-to-center tracing, a terrain pass with the
adjacency rules, then a creature pass, keeping the single best cover found. -/
def getCover (attacker target : Position) (g : Grid) (units : List Unit) : CoverInfo :=
  let cellsInLine := coverPathCells attacker target
  let afterTerrain :=
    cellsInLine.foldl (getCoverTerrainStep attacker target g)
      ⟨CoverType.none, 0, CoverSource.none⟩
  let attackerUnit := units.find? fun u => u.position.x == attacker.x && u.position.y == attacker.y
  let targetUnit := units.find? fun u => u.position.x == target.x && u.position.y == target.y
  cellsInLine.foldl (getCoverCreatureStep attacker target units attackerUnit targetUnit)
    afterTerrain

/-- getCoverWithEffects of gridUtils: getCover, upgraded when the target unit
carries the takingCoverEnhanced status effect (standard becomes greater,
lesser and none become standard; greater is returned unchanged). The basic
takingCover effect is not consulted. -/
def getCoverWithEffects (attacker target : Position) (g : Grid) (units : List Unit)
    (targetUnit : Option Unit) : CoverInfo :=
  let baseCover := getCover attacker target g units
  match targetUnit with
  | some tu =>
    if tu.statusEffects.any fun e => e.type == EffectKind.takingCoverEnhanced then
      match baseCover.type with
      | CoverType.standard => ⟨CoverType.greater, 4, CoverSource.action⟩
      | CoverType.lesser => ⟨CoverType.standard, 2, CoverSource.action⟩
      | CoverType.none => ⟨CoverType.standard, 2, CoverSource.action⟩
      | CoverType.greater => baseCover
    else baseCover
  | Option.none => baseCover

/-! ### Store operations (the gameStore module) -/

/-- Lookup of a unit by identity, units.find of the source. -/
def findUnit (us : List Unit) (uid : Nat) : Option Unit :=
  us.find? fun u => u.id == uid

/-- Lookup of a status effect by tag, statusEffects.find of the source. -/
def findEffect (u : Unit) (k : EffectKind) : Option StatusEffect :=
  u.statusEffects.find? fun e => e.type == k

/-- Value added by a status effect when present: the source adds
effect.value after a successful find and nothing otherwise. -/
def effectBonus (u : Unit) (k : EffectKind) : Int :=
  match findEffect u k with
  | some e => e.value
  | Option.none => 0

/-- JavaScript truthiness of the rangeWeapon field (a number: 0 and
undefined are falsy). -/
def rangeWeaponTruthy (u : Unit) : Bool :=
  match u.rangeWeapon with
  | some r => !(r == 0)
  | Option.none => false

/-- Relocation of one unit, the position mutation after a successful push. -/
def moveUnitTo (s : GState) (uid : Nat) (p : Position) : GState :=
  { s with units := updateFirst s.units (fun u => u.id == uid) fun u => { u with position := p } }

/-- pushUnit of the store: validates the full-distance destination (bounds,
wall, occupancy by another living unit), then, for a braced unit pushed more
than one tile, validates and uses the one-tile destination instead; any
failed check returns false with the state untouched. -/
def pushUnit (s : GState) (unitId : Nat) (direction : Position) (distance : Int) :
    Bool × GState :=
  match findUnit s.units unitId with
  | Option.none => (false, s)
  | some unit =>
    let targetX := unit.position.x + direction.x * distance
    let targetY := unit.position.y + direction.y * distance
    if ¬ inBounds targetX targetY then (false, s)
    else if cellAt s.grid targetX targetY = CellType.wall then (false, s)
    else if s.units.any (fun u =>
        u.position.x == targetX && u.position.y == targetY &&
          decide (u.hp > 0) && !(u.id == unitId)) then (false, s)
    else if (findEffect unit EffectKind.braced).isSome ∧ distance > 1 then
      let reducedTargetX := unit.position.x + direction.x * 1
      let reducedTargetY := unit.position.y + direction.y * 1
      if ¬ inBounds reducedTargetX reducedTargetY then (false, s)
      else if cellAt s.grid reducedTargetX reducedTargetY = CellType.wall then (false, s)
      else if s.units.any (fun u =>
          u.position.x == reducedTargetX && u.position.y == reducedTargetY &&
            decide (u.hp > 0) && !(u.id == unitId)) then (false, s)
      else (true, moveUnitTo s unitId ⟨reducedTargetX, reducedTargetY⟩)
    else (true, moveUnitTo s unitId ⟨targetX, targetY⟩)

/-- Round-wrap expiry of endTurn: every duration drops by one and effects at
duration <= 0 after the drop are removed. -/
def roundExpireEffects (l : List StatusEffect) : List StatusEffect :=
  (l.map fun e => { e with duration := e.duration - 1 }).filter fun e =>
    decide (e.duration > 0)

/-- Cursor slot endTurn advances to: the slot after the current unit's slot,
modulo the order length (indexOf yields -1 when the current identity is
absent, as in the source; an empty order is degenerate in the source too). -/
def endTurnNextIndex (s : GState) : Int :=
  let currentIndex : Int :=
    match s.currentUnitId with
    | some id =>
      match s.turnOrder.findIdx? (fun x => x == id) with
      | some i => (i : Int)
      | Option.none => -1
    | Option.none => -1
  (currentIndex + 1) % (s.turnOrder.length : Int)

/-- Dead-unit skipping loop of endTurn: while the slot holds a dead unit and
fewer than turnOrder.length attempts were made, advance one slot. -/
def endTurnSkipDead (units : List Unit) (turnOrder : List Nat) :
    Nat → Nat → Nat
  | nextUnitId, 0 => nextUnitId
  | nextUnitId, fuel + 1 =>
    match findUnit units nextUnitId with
    | Option.none => nextUnitId
    | some nu =>
      if nu.hp ≤ 0 then
        let index : Int :=
          match turnOrder.findIdx? (fun x => x == nextUnitId) with
          | some i => (i : Int)
          | Option.none => -1
        let next := (index + 1) % (turnOrder.length : Int)
        endTurnSkipDead units turnOrder (turnOrder.getD next.toNat 0) fuel
      else nextUnitId

/-- Cursor-advancing tail of endTurn: resolve the next slot to a unit,
skipping dead units, and when a living one is found activate it with a fresh
action budget and a reset strike counter (turnOrder is never mutated, so its
length equals the length captured by endTurn before the expiry step). -/
def endTurnAdvance (s2 : GState) (nextIndex : Int) : GState :=
  let nextUnitId :=
    endTurnSkipDead s2.units s2.turnOrder (s2.turnOrder.getD nextIndex.toNat 0)
      s2.turnOrder.length
  match findUnit s2.units nextUnitId with
  | some nu =>
    if nu.hp > 0 then
      { s2 with
        units := updateFirst s2.units (fun u => u.id == nextUnitId) fun u =>
          { u with isActive := true, actionsRemaining := ACTIONS_PER_TURN,
                   strikesThisTurn := 0 },
        currentUnitId := some nextUnitId }
    else s2
  | Option.none => s2

/-- endTurn of the store: on a full round (cursor wrapping to slot 0) the
round counter increments and every unit's effects expire by
roundExpireEffects; the current unit is deactivated; the cursor advances to
the next living unit in order, which is activated. -/
def endTurn (s : GState) : GState :=
  let nextIndex := endTurnNextIndex s
  let s1 :=
    if nextIndex = 0 then
      { s with
        round := s.round + 1,
        units := s.units.map fun u =>
          { u with statusEffects := roundExpireEffects u.statusEffects } }
    else s
  let s2 :=
    { s1 with
      units := updateFirst s1.units (fun u => some u.id == s1.currentUnitId) fun u =>
        { u with isActive := false } }
  endTurnAdvance s2 nextIndex

/-- Random oracle for attack resolution: d20 k is the k-th d20 drawn, and
die k i is the i-th damage die of the k-th rollDamage call. -/
structure Rng where
  d20 : Nat → Int
  die : Nat → Nat → Int

/-- Removal of the consumed one-shot effects after a strike, the filter at
the end of the attackUnit / executeLineAttack set blocks. -/
def removeConsumedEffects (u : Unit) : Unit :=
  { u with
    statusEffects := u.statusEffects.filter fun e =>
      !(e.type == EffectKind.aimed) && !(e.type == EffectKind.precisionDrilling) &&
        !(e.type == EffectKind.combatBrewDamage) }

/-- Ammo decrement after a strike: ranged weapons with a defined ammo pool
lose one round, floored at zero. -/
def consumeAmmo (u : Unit) : Unit :=
  if rangeWeaponTruthy u ∧ u.currentAmmo.isSome then
    { u with currentAmmo := some (max 0 (u.currentAmmo.getD 0 - 1)) }
  else u

/-- Victory test of the set blocks of attackUnit and executeLineAttack:
phase flips to victory when every enemy-allegiance unit has hp <= 0, else to
defeat when every dwarf-allegiance unit has hp <= 0, else stays. -/
def checkVictoryPhase (units : List Unit) (phase : Phase) : Phase :=
  let dwarves := units.filter fun u => u.type == UnitType.dwarf
  let enemies := units.filter fun u => u.type == UnitType.enemy
  if enemies.all fun e => decide (e.hp ≤ 0) then Phase.victory
  else if dwarves.all fun d => decide (d.hp ≤ 0) then Phase.defeat
  else phase

/-- executeLineAttack of the store: collects every living unit other than the
attacker on the Bresenham line to the chosen target and rolls one independent
attack against each (fresh d20, shared attack bonus and multiple-attack
penalty, per-target legacy cover penalty subtracted from the roll, shieldWall
and defending AC bonuses); damage applies per hit with critical doubling;
afterwards the attacker pays one action, counts one strike, spends ammo,
loses consumed effects, and the victory test runs. -/
def executeLineAttack (rng : Rng) (s : GState) (attackerId targetId : Nat) : GState :=
  match findUnit s.units attackerId, findUnit s.units targetId with
  | some attacker, some primaryTarget =>
    if attacker.actionsRemaining ≤ 0 then s
    else
      let linePositions := getLinePositions attacker.position primaryTarget.position
      let unitsInLine := s.units.filter fun u =>
        decide (u.hp > 0) && !(u.id == attackerId) &&
          linePositions.any fun pos => pos.x == u.position.x && pos.y == u.position.y
      let mapPenalty := mapPenaltyForStrikes attacker.strikesThisTurn
      let attackBonus := attacker.attackBonus + effectBonus attacker EffectKind.aimed
      let attackTargets := unitsInLine.enum.map fun p =>
        let idx := p.1
        let target := p.2
        let coverPenalty := getCoverPenalty attacker.position target.position s.grid
        let effectiveAC := target.ac + effectBonus target EffectKind.shieldWall +
          effectBonus target EffectKind.defending
        let roll := rng.d20 idx
        let total := roll + attackBonus - coverPenalty - |mapPenalty|
        let hit := decide (total ≥ effectiveAC)
        let critical := isCriticalHit roll total effectiveAC
        let damage : Int :=
          if hit then
            let dr := rollDamage (rng.die idx) attacker.damage
            if critical then dr.total * 2 else dr.total
          else 0
        (target.id, hit, damage)
      let units1 := attackTargets.foldl
        (fun us t =>
          if t.2.1 && decide (t.2.2 > 0) then
            updateFirst us (fun u => u.id == t.1) fun u =>
              { u with hp := max 0 (u.hp - t.2.2) }
          else us)
        s.units
      let units2 := updateFirst units1 (fun u => u.id == attackerId) fun u =>
        removeConsumedEffects (consumeAmmo
          { u with actionsRemaining := u.actionsRemaining - 1,
                   strikesThisTurn := u.strikesThisTurn + 1 })
      { s with units := units2, phase := checkVictoryPhase units2 s.phase }
  | _, _ => s

/-- attackUnit of the store: guards (existence, action budget, ammo), the
line-weapon redirect, the corner line-of-sight gate, cover via
getCoverWithEffects (zeroed by precisionDrilling), the d20 roll against
effective AC with the multiple-attack penalty, damage with the combat-brew
buff and critical doubling, the single set block (target hp, attacker
bookkeeping, victory test), and then splash: a splash-tagged attacker whose
primary attack hit deals 1 damage to every living unit adjacent to the
target, with no further victory test after those hp mutations. -/
def attackUnit (rng : Rng) (s : GState) (attackerId targetId : Nat) : GState :=
  match findUnit s.units attackerId, findUnit s.units targetId with
  | some attacker, some target =>
    if attacker.actionsRemaining ≤ 0 then s
    else if rangeWeaponTruthy attacker &&
        (match attacker.currentAmmo with
         | some a => decide (a ≤ 0)
         | Option.none => false) then s
    else if attacker.special.contains SpecialTag.line then
      executeLineAttack rng s attackerId targetId
    else if ¬ hasLineOfSight attacker.position target.position s.grid then s
    else
      let coverInfo := getCoverWithEffects attacker.position target.position s.grid s.units
        (some target)
      let coverBonus :=
        if (findEffect attacker EffectKind.precisionDrilling).isSome then 0
        else coverInfo.bonus
      let mapPenalty := mapPenaltyForStrikes attacker.strikesThisTurn
      let effectiveAC := target.ac + coverBonus + effectBonus target EffectKind.shieldWall +
        effectBonus target EffectKind.defending + effectBonus target EffectKind.shieldRaised
      let attackBonus := attacker.attackBonus + effectBonus attacker EffectKind.aimed
      let roll := rng.d20 0
      let total := roll + attackBonus - |mapPenalty|
      let hit := decide (total ≥ effectiveAC)
      let critical := isCriticalHit roll total effectiveAC
      let damageTotal : Int :=
        if hit then
          let dr := rollDamage (rng.die 0) attacker.damage
          let brew := (findEffect attacker EffectKind.combatBrewDamage).map fun e => e.value
          applyDamageEffects dr.total brew critical
        else 0
      let units1 :=
        if hit then
          updateFirst s.units (fun u => u.id == targetId) fun u =>
            { u with hp := max 0 (u.hp - damageTotal) }
        else s.units
      let units2 := updateFirst units1 (fun u => u.id == attackerId) fun u =>
        removeConsumedEffects (consumeAmmo
          { u with actionsRemaining := u.actionsRemaining - 1,
                   strikesThisTurn := u.strikesThisTurn + 1 })
      let s1 := { s with units := units2, phase := checkVictoryPhase units2 s.phase }
      if hit && attacker.special.contains SpecialTag.splash then
        let adjacent := getAdjacentPositions target.position
        let snapshot := s1.units
        adjacent.foldl
          (fun acc pos =>
            match snapshot.find? (fun u =>
                u.position.x == pos.x && u.position.y == pos.y &&
                  decide (u.hp > 0) && !(u.id == targetId)) with
            | some victim =>
              { acc with
                units := updateFirst acc.units (fun u => u.id == victim.id) fun u =>
                  { u with hp := max 0 (u.hp - 1) } }
            | Option.none => acc)
          s1
      else s1
  | _, _ => s

/-! ### Specification-side definitions used to judge the claims -/

/-- Largest element of a list of bonuses, floored at zero. -/
def listMax (l : List Int) : Int := l.foldr max 0

/-- Bonus a single traced cell contributes through terrain, spelling out the
rules of the terrain pass of getCover: nothing on the cells of attacker or
target; crates and doors give 2 unless the attacker is adjacent to the cell
while the target is not; walls give 4. -/
def terrainCoverBonus (attacker target : Position) (g : Grid) (c : Int × Int) : Int :=
  if (c.1 = attacker.x ∧ c.2 = attacker.y) ∨ (c.1 = target.x ∧ c.2 = target.y) then 0
  else
    let gridCell := cellAt g c.1 c.2
    if gridCell = CellType.crate ∨ gridCell = CellType.door then
      if calculateDistance attacker ⟨c.1, c.2⟩ = 1 ∧
          ¬ calculateDistance target ⟨c.1, c.2⟩ = 1 then 0
      else 2
    else if gridCell = CellType.wall then 4
    else 0

/-- Bonus a single traced cell contributes through an intervening creature:
1 when a living unit other than the attacker unit and the target unit stands
on it, 0 otherwise (and on the cells of attacker or target). -/
def creatureCoverBonus (attacker target : Position) (units : List Unit)
    (c : Int × Int) : Int :=
  let attackerUnit := units.find? fun u => u.position.x == attacker.x && u.position.y == attacker.y
  let targetUnit := units.find? fun u => u.position.x == target.x && u.position.y == target.y
  if (c.1 = attacker.x ∧ c.2 = attacker.y) ∨ (c.1 = target.x ∧ c.2 = target.y) then 0
  else if units.any fun u =>
      u.position.x == c.1 && u.position.y == c.2 && decide (u.hp > 0) &&
        !(match attackerUnit with
          | some au => u.id == au.id
          | Option.none => false) &&
        !(match targetUnit with
          | some tu => u.id == tu.id
          | Option.none => false) then 1
  else 0

/-- Bonus of the best cover source a single traced cell holds. -/
def coverSourceBonus (attacker target : Position) (g : Grid) (units : List Unit)
    (c : Int × Int) : Int :=
  max (terrainCoverBonus attacker target g c) (creatureCoverBonus attacker target units c)

/-- Membership in the defined cover tiers: 0, 1, 2 or 4. -/
def coverTier (b : Int) : Prop := b = 0 ∨ b = 1 ∨ b = 2 ∨ b = 4

/-- Validity of a knockback destination according to the spec wording: inside
the grid, not a wall, not occupied by another living unit. -/
def destValid (s : GState) (uid : Nat) (x y : Int) : Bool :=
  inBounds x y && !(cellAt s.grid x y == CellType.wall) &&
    !(s.units.any fun u =>
      u.position.x == x && u.position.y == y && decide (u.hp > 0) && !(u.id == uid))

/-- Destination pushUnit actually uses for a found unit, phrased as a
specification: the full-distance destination must be valid; a braced unit
pushed more than one tile then additionally needs the one-tile destination
valid and lands there; failure of either check aborts the push. -/
def pushDest (s : GState) (u : Unit) (uid : Nat) (direction : Position)
    (distance : Int) : Option Position :=
  let full : Position :=
    ⟨u.position.x + direction.x * distance, u.position.y + direction.y * distance⟩
  if ¬ destValid s uid full.x full.y then none
  else if (findEffect u EffectKind.braced).isSome ∧ distance > 1 then
    let reduced : Position := ⟨u.position.x + direction.x * 1, u.position.y + direction.y * 1⟩
    if destValid s uid reduced.x reduced.y then some reduced else none
  else some full

/-! ### Concrete scenario data for the evaluation theorems -/

/-- Row of eight floor cells. -/
def rowFloor : List CellType := List.replicate 8 CellType.floor

/-- Fully open 8 by 8 grid. -/
def gridOpen : Grid := List.replicate 8 rowFloor

/-- Grid whose only non-floor cell is a crate at (1, 0). -/
def gridBfs : Grid :=
  [CellType.floor, CellType.crate, CellType.floor, CellType.floor,
   CellType.floor, CellType.floor, CellType.floor, CellType.floor] ::
    List.replicate 7 rowFloor

/-- Grid whose only non-floor cell is a wall at (3, 1). -/
def gridWallAt31 : Grid :=
  [rowFloor,
   [CellType.floor, CellType.floor, CellType.floor, CellType.wall,
    CellType.floor, CellType.floor, CellType.floor, CellType.floor],
   rowFloor, rowFloor, rowFloor, rowFloor, rowFloor, rowFloor]

/-- Moving unit of the movement-range scenario, standing at the start cell. -/
def moverBfs : Unit :=
  { id := 0, type := UnitType.dwarf, position := ⟨0, 0⟩, hp := 5, maxHp := 5,
    ac := 14, speed := 3, attackBonus := 2, damage := "1d6", actionsRemaining := 3 }

/-- Splash-weapon attacker of the victory-check scenario (data of the
brewmaster chem-launcher: splash-tagged, dice 1d4+1, ranged with ammo). -/
def atkSplash : Unit :=
  { id := 0, type := UnitType.dwarf, position := ⟨1, 1⟩, hp := 8, maxHp := 8,
    ac := 15, speed := 3, attackBonus := 2, damage := "1d4+1",
    rangeWeapon := some 4, currentAmmo := some 3, maxAmmo := some 4,
    actionsRemaining := 3, special := [SpecialTag.splash] }

/-- Primary target of the victory-check scenario: 2 hp enemy. -/
def tgtPrimary : Unit :=
  { id := 1, type := UnitType.enemy, position := ⟨2, 1⟩, hp := 2, maxHp := 3,
    ac := 10, speed := 3, attackBonus := 1, damage := "1d4", actionsRemaining := 0 }

/-- Last other enemy of the victory-check scenario: 1 hp, adjacent to the
primary target, killed by the 1 point of splash. -/
def enemyAdjacent : Unit :=
  { id := 2, type := UnitType.enemy, position := ⟨2, 2⟩, hp := 1, maxHp := 3,
    ac := 10, speed := 3, attackBonus := 1, damage := "1d4", actionsRemaining := 0 }

/-- State of the victory-check scenario. -/
def stateSplash : GState :=
  { units := [atkSplash, tgtPrimary, enemyAdjacent], grid := gridOpen,
    turnOrder := [0, 1, 2], currentUnitId := some 0, round := 1, phase := Phase.combat }

/-- Dice oracle of the victory-check scenario: the d20 shows 15, damage dice
show 2 (total 3 with the +1 bonus, enough to kill the 2 hp target). -/
def rngSplash : Rng := { d20 := fun _ => 15, die := fun _ _ => 2 }

/-- Braced unit of the knockback scenario. -/
def unitBraced : Unit :=
  { id := 0, type := UnitType.dwarf, position := ⟨1, 1⟩, hp := 5, maxHp := 5,
    ac := 14, speed := 3, attackBonus := 2, damage := "1d6", actionsRemaining := 3,
    statusEffects := [⟨EffectKind.braced, 1, 1⟩] }

/-- State of the knockback scenario: a braced unit at (1, 1) and a wall at
(3, 1), the full destination of a two-tile push along the x axis. -/
def stateBraced : GState :=
  { units := [unitBraced], grid := gridWallAt31, turnOrder := [0],
    currentUnitId := some 0, round := 1, phase := Phase.combat }

/-- Prone unit of the round-wrap scenario, carrying the sentinel duration -1
that dropProneAction applies. -/
def unitProne : Unit :=
  { id := 10, type := UnitType.dwarf, position := ⟨1, 1⟩, hp := 5, maxHp := 5,
    ac := 14, speed := 3, attackBonus := 2, damage := "1d6", actionsRemaining := 0,
    statusEffects := [⟨EffectKind.prone, 1, -1⟩] }

/-- Active unit of the round-wrap scenario, holding the last initiative slot. -/
def unitLastSlot : Unit :=
  { id := 11, type := UnitType.dwarf, position := ⟨2, 1⟩, hp := 5, maxHp := 5,
    ac := 14, speed := 3, attackBonus := 2, damage := "1d6", actionsRemaining := 0,
    isActive := true }

/-- State of the round-wrap scenario: ending the turn of the unit in the
last slot wraps the cursor back to slot 0 and completes the round. -/
def stateRoundWrap : GState :=
  { units := [unitProne, unitLastSlot], grid := gridOpen, turnOrder := [10, 11],
    currentUnitId := some 11, round := 1, phase := Phase.combat }

/-- Target of the take-cover scenario: it has taken the basic take cover
action, so it carries the takingCover status effect that action applies. -/
def unitTakingCover : Unit :=
  { id := 1, type := UnitType.enemy, position := ⟨5, 1⟩, hp := 3, maxHp := 3,
    ac := 10, speed := 3, attackBonus := 1, damage := "1d4", actionsRemaining := 0,
    statusEffects := [⟨EffectKind.takingCover, 1, 1⟩] }

/-- Same target carrying instead the takingCoverEnhanced effect applied by
the enhanced take cover action. -/
def unitTakingCoverEnhanced : Unit :=
  { id := 1, type := UnitType.enemy, position := ⟨5, 1⟩, hp := 3, maxHp := 3,
    ac := 10, speed := 3, attackBonus := 1, damage := "1d4", actionsRemaining := 0,
    statusEffects := [⟨EffectKind.takingCoverEnhanced, 1, 1⟩] }

/-- Attacker standing opposite the take-cover target on an open grid. -/
def attackerOpen : Unit :=
  { id := 0, type := UnitType.dwarf, position := ⟨1, 1⟩, hp := 8, maxHp := 8,
    ac := 15, speed := 3, attackBonus := 2, damage := "1d6", actionsRemaining := 3 }

/-! ### Theorems on the claims -/

/-- C5 counterexample: the claim predicts that on a critical hit the rolled
total is doubled first and the combat-brew buff is added after the doubling,
so a rolled total of 3 with a +2 brew buff would deal 2 * 3 + 2 = 8; the code
adds the buff before doubling and deals (3 + 2) * 2 = 10. -/
theorem C5_counterexample_brew_buff_doubled :
    applyDamageEffects 3 (some 2) true = 10 ∧ applyDamageEffects 3 (some 2) true ≠ 2 * 3 + 2 := by
  constructor
  · rfl
  · decide

/-- C5 (amended): when the attack is a critical hit, judged exactly by
isCriticalHit (natural 20 or total at least effective AC + 10), the
combat-brew flat buff is added to the rolled damage total first and the sum
is then doubled, so additive buffs are doubled as well; without the buff the
rolled total alone is doubled. -/
theorem C5_crit_doubles_after_adding_brew :
    ∀ (roll total targetAC rolledTotal brewValue : Int),
      (isCriticalHit roll total targetAC =
        ((roll == 20) || decide (total ≥ targetAC + 10))) ∧
      applyDamageEffects rolledTotal (some brewValue) true = 2 * (rolledTotal + brewValue) ∧
      applyDamageEffects rolledTotal Option.none true = 2 * rolledTotal := by
  intro roll total targetAC rolledTotal brewValue
  refine ⟨rfl, ?_, ?_⟩
  · simp [applyDamageEffects]; ring
  · simp [applyDamageEffects]; ring

/-- C7 counterexample: the claim predicts a hard failure on any string the
dice grammar rejects, but on the rejected string abc the code produces the
usable damage record with rolls [1], bonus 0 and total 1. -/
theorem C7_counterexample_invalid_dice_returns_usable_total :
    parseDiceString "abc" = Option.none ∧
      rollDamage (fun _ => 1) "abc" = ⟨[1], 0, 1⟩ ∧
      (rollDamage (fun _ => 1) "abc").total = 1 := by
  refine ⟨by decide, rfl, rfl⟩

/-- C7 (amended): for every input string that is not of the form NdS or
NdS+B (the dice grammar rejects it), rollDamage does not fail: for any die
oracle it logs the problem and returns the fixed fallback record rolls [1],
bonus 0, total 1, silently yielding a usable total of 1. -/
theorem C7_invalid_dice_returns_fallback (die : Nat → Int) (s : String)
    (h : parseDiceString s = Option.none) :
    rollDamage die s = ⟨[1], 0, 1⟩ := by
  simp [rollDamage, h]

/-- C7 witness: the hypothesis of the fallback theorem holds at the concrete
string abc and the conclusion evaluates there. -/
theorem C7_fallback_witness :
    parseDiceString "abc" = Option.none ∧
      rollDamage (fun _ => 3) "abc" = ⟨[1], 0, 1⟩ :=
  ⟨by decide, C7_invalid_dice_returns_fallback (fun _ => 3) "abc" (by decide)⟩

/-- C8: for every strike count the penalty lookup indexes the schedule at
min(count, length - 1), an index always inside the schedule, and the third
and every later strike receive exactly the last (maximum) penalty of the
schedule; the count is a natural number, so no negative index exists. -/
theorem C8_map_penalty_clamped_to_last_entry :
    ∀ n : Nat,
      min n (MAP_PENALTIES.length - 1) < MAP_PENALTIES.length ∧
      mapPenaltyForStrikes n = MAP_PENALTIES.getD (min n 2) 0 ∧
      (2 ≤ n → mapPenaltyForStrikes n = -10) := by
  intro n
  have hl : MAP_PENALTIES.length = 3 := rfl
  refine ⟨?_, rfl, ?_⟩
  · rw [hl]
    omega
  · intro h
    have hm : min n (MAP_PENALTIES.length - 1) = 2 := by rw [hl]; omega
    unfold mapPenaltyForStrikes
    rw [hm]
    rfl

/-- C8 witness: the clamping theorem applied at the concrete strike count 7,
its inner hypothesis discharged there. -/
theorem C8_map_penalty_witness :
    mapPenaltyForStrikes 7 = -10 :=
  (C8_map_penalty_clamped_to_last_entry 7).2.2 (by decide)

set_option maxRecDepth 40000 in
/-- C1: in the concrete splash scenario the primary strike leaves one enemy
alive (so the in-block victory test keeps the phase at combat), the splash
point then kills that last enemy, and attackUnit returns with every
enemy-allegiance unit at hp <= 0 while the phase is still combat, not
victory. -/
theorem C1_splash_kills_last_enemy_phase_not_victory :
    ((attackUnit rngSplash stateSplash 0 1).units.filter
        (fun u => u.type == UnitType.enemy)).all (fun u => decide (u.hp ≤ 0)) = true ∧
      (attackUnit rngSplash stateSplash 0 1).phase = Phase.combat ∧
      (attackUnit rngSplash stateSplash 0 1).phase ≠ Phase.victory := by
  refine ⟨by decide, by decide, by decide⟩

/-- C2: on the grid with a single crate at (1, 0), the cell (3, 0) is
reachable from (0, 0) through the valid 8-connected path via (1, 1) and
(2, 1) of accumulated entry cost 3, yet getMovementRange with speed 3 omits
it: the first-in-first-out search settles (2, 0) through the more expensive
crate route first and stops expanding there. -/
theorem C2_movement_range_omits_reachable_cell :
    pathOK gridBfs [moverBfs] ⟨0, 0⟩ [⟨1, 1⟩, ⟨2, 1⟩, ⟨3, 0⟩] = true ∧
      pathCost gridBfs [⟨1, 1⟩, ⟨2, 1⟩, ⟨3, 0⟩] = 3 ∧
      ((⟨3, 0⟩ : Position) ∈ getMovementRange ⟨0, 0⟩ 3 gridBfs [moverBfs]) = False := by
  refine ⟨by decide, by decide, by decide⟩

set_option maxRecDepth 40000 in
/-- C4: the basic take cover action applies the takingCover status effect,
but the cover resolver ignores that effect: with the effect present and no
other cover source the resolver returns no cover with bonus 0 instead of the
standard cover with bonus 2 the claim predicts, while the enhanced effect on
the same geometry does produce the upgrade. -/
theorem C4_basic_take_cover_effect_ignored :
    (findEffect unitTakingCover EffectKind.takingCover).isSome = true ∧
      getCoverWithEffects ⟨1, 1⟩ ⟨5, 1⟩ gridOpen [attackerOpen, unitTakingCover]
          (some unitTakingCover) =
        ⟨CoverType.none, 0, CoverSource.none⟩ ∧
      getCoverWithEffects ⟨1, 1⟩ ⟨5, 1⟩ gridOpen [attackerOpen, unitTakingCoverEnhanced]
          (some unitTakingCoverEnhanced) =
        ⟨CoverType.standard, 2, CoverSource.action⟩ := by
  refine ⟨by decide, by decide, by decide⟩


/-- Mutating the first matching unit with a function that leaves the effect
list untouched does not change the effect lists of the unit collection. -/
theorem updateFirst_map_statusEffects (us : List Unit) (p : Unit → Bool) (f : Unit → Unit)
    (h : ∀ u, (f u).statusEffects = u.statusEffects) :
    (updateFirst us p f).map (fun u => u.statusEffects) = us.map fun u => u.statusEffects := by
  induction us with
  | nil => rfl
  | cons u rest ih =>
    unfold updateFirst
    by_cases hp : p u
    · simp [hp, h u, ih]
    · simp [hp, ih]

/-- C6 counterexample: in the concrete round-wrap state the prone effect
carries the sentinel duration -1, the cursor wraps to slot 0, and endTurn
removes the prone effect (the decrement takes -1 to -2, which the expiry
filter prunes), contradicting the claim that sentinel-duration effects
survive round expiry. -/
theorem C6_counterexample_prone_removed_at_round_wrap :
    unitProne.statusEffects = [⟨EffectKind.prone, 1, -1⟩] ∧
      endTurnNextIndex stateRoundWrap = 0 ∧
      ((endTurn stateRoundWrap).units.map fun u => u.statusEffects) = [[], []] := by
  refine ⟨rfl, by decide, by decide⟩

/-- Advancing the cursor and activating the next unit leaves every unit's
status-effect list unchanged. -/
theorem endTurnAdvance_map_statusEffects (s2 : GState) (nextIndex : Int) :
    ((endTurnAdvance s2 nextIndex).units.map fun u => u.statusEffects) =
      s2.units.map fun u => u.statusEffects := by
  simp only [endTurnAdvance]
  cases hf : findUnit s2.units
      (endTurnSkipDead s2.units s2.turnOrder (s2.turnOrder.getD nextIndex.toNat 0)
        s2.turnOrder.length) with
  | none => simp only [hf]
  | some nu =>
    by_cases hhp : nu.hp > 0
    · simp only [hf, if_pos hhp]
      exact updateFirst_map_statusEffects _ _ _ fun _ => rfl
    · simp only [hf, if_neg hhp]

/-- C6 (amended): when the initiative cursor wraps back to the first slot,
endTurn decrements every unit's status-effect durations by 1 and removes
exactly those effects whose resulting duration is <= 0 - including effects
carrying the sticky sentinel duration -1 such as prone, which this round
expiry does remove; only the in-round clearing of prone by movement works as
an explicit clear. -/
theorem C6_round_wrap_expires_all_nonpositive_durations (s : GState)
    (h : endTurnNextIndex s = 0) :
    ((endTurn s).units.map fun u => u.statusEffects) =
      s.units.map fun u => roundExpireEffects u.statusEffects := by
  simp only [endTurn, h, reduceIte]
  rw [endTurnAdvance_map_statusEffects]
  dsimp only
  rw [updateFirst_map_statusEffects _ _
    (fun u => { u with isActive := false }) (fun _ => rfl)]
  rw [List.map_map]
  rfl

/-- C6 witness: the expiry theorem applied to the concrete round-wrap state,
its wrap hypothesis discharged there. -/
theorem C6_round_wrap_witness :
    endTurnNextIndex stateRoundWrap = 0 ∧
      ((endTurn stateRoundWrap).units.map fun u => u.statusEffects) =
        stateRoundWrap.units.map fun u => roundExpireEffects u.statusEffects :=
  ⟨by decide, C6_round_wrap_expires_all_nonpositive_durations stateRoundWrap (by decide)⟩

/-- C9 counterexample: the braced unit at (1, 1) is pushed two tiles toward
the wall at (3, 1); the one-tile destination (2, 1) passes every validity
check, so the claim predicts a one-tile relocation, yet pushUnit fails with
the state unchanged because it validates the full-distance destination (the
wall) first. -/
theorem C9_counterexample_braced_push_blocked_by_far_destination :
    (findEffect unitBraced EffectKind.braced).isSome = true ∧
      destValid stateBraced 0 2 1 = true ∧
      cellAt stateBraced.grid 3 1 = CellType.wall ∧
      pushUnit stateBraced 0 ⟨1, 0⟩ 2 = (false, stateBraced) := by
  refine ⟨by decide, by decide, by decide, by decide⟩

/-- C9 (amended): for a found unit, pushUnit fails with every position
unchanged exactly when the full-distance destination is invalid (outside the
grid, a wall, or occupied by another living unit), or when the unit is braced
with requested distance above 1 and the one-tile destination is invalid; in
the braced far-push case with both destinations valid it relocates the unit
exactly one tile, and otherwise to position + direction * distance, returning
success. -/
theorem C9_push_characterization (s : GState) (uid : Nat) (direction : Position)
    (distance : Int) (u : Unit) (h : findUnit s.units uid = some u) :
    pushUnit s uid direction distance =
      match pushDest s u uid direction distance with
      | some p => (true, moveUnitTo s uid p)
      | Option.none => (false, s) := by
  unfold pushUnit pushDest destValid
  rw [h]
  simp only [mul_one]
  by_cases h1 : inBounds (u.position.x + direction.x * distance)
      (u.position.y + direction.y * distance) = true
  case neg => simp [h1]
  case pos =>
  by_cases h2 : cellAt s.grid (u.position.x + direction.x * distance)
      (u.position.y + direction.y * distance) = CellType.wall
  case pos => simp [h1, h2]
  case neg =>
  by_cases h3 : (s.units.any fun v =>
      v.position.x == u.position.x + direction.x * distance &&
        v.position.y == u.position.y + direction.y * distance &&
        decide (v.hp > 0) && !(v.id == uid)) = true
  case pos => simp [h1, h2, h3]
  case neg =>
  by_cases h4 : (findEffect u EffectKind.braced).isSome ∧ distance > 1
  case neg => simp [h1, h2, h3, h4]
  case pos =>
  by_cases h5 : inBounds (u.position.x + direction.x)
      (u.position.y + direction.y) = true
  case neg => simp [h1, h2, h3, h4, h5]
  case pos =>
  by_cases h6 : cellAt s.grid (u.position.x + direction.x)
      (u.position.y + direction.y) = CellType.wall
  case pos => simp [h1, h2, h3, h4, h5, h6]
  case neg =>
  by_cases h7 : (s.units.any fun v =>
      v.position.x == u.position.x + direction.x &&
        v.position.y == u.position.y + direction.y &&
        decide (v.hp > 0) && !(v.id == uid)) = true
  · simp [h1, h2, h3, h4, h5, h6, h7]
  · simp [h1, h2, h3, h4, h5, h6, h7]

/-- C9 witness: the characterization applied to the concrete braced-push
state, its lookup hypothesis discharged there. -/
theorem C9_push_witness :
    pushUnit stateBraced 0 ⟨1, 0⟩ 2 = (false, stateBraced) := by
  rw [C9_push_characterization stateBraced 0 ⟨1, 0⟩ 2 unitBraced (by decide)]
  decide


/-- Membership after one set insertion. -/
theorem mem_insertCell (acc : List (Int × Int)) (d c : Int × Int) :
    c ∈ insertCell acc d ↔ c ∈ acc ∨ c = d := by
  unfold insertCell
  split_ifs with hd
  · constructor
    · exact Or.inl
    · rintro (hc | rfl)
      · exact hc
      · exact hd
  · simp [List.mem_append]

/-- Membership after folding a list of cells into the set. -/
theorem mem_foldl_insertCell (l acc : List (Int × Int)) (c : Int × Int) :
    c ∈ l.foldl insertCell acc ↔ c ∈ acc ∨ c ∈ l := by
  induction l generalizing acc with
  | nil => simp
  | cons d rest ih =>
    rw [List.foldl_cons, ih, mem_insertCell]
    simp [or_assoc]

/-- Membership in the accumulated trace over a list of sample indices. -/
theorem mem_traceFold (F : Nat → List (Int × Int)) (idxs : List Nat)
    (acc : List (Int × Int)) (c : Int × Int) :
    c ∈ idxs.foldl (fun a i => (F i).foldl insertCell a) acc ↔
      c ∈ acc ∨ ∃ i ∈ idxs, c ∈ F i := by
  induction idxs generalizing acc with
  | nil => simp
  | cons i rest ih =>
    rw [List.foldl_cons, ih, mem_foldl_insertCell]
    simp only [List.mem_cons]
    constructor
    · rintro ((hc | hc) | ⟨j, hj, hc⟩)
      · exact Or.inl hc
      · exact Or.inr ⟨i, Or.inl rfl, hc⟩
      · exact Or.inr ⟨j, Or.inr hj, hc⟩
    · rintro (hc | ⟨j, (rfl | hj), hc⟩)
      · exact Or.inl (Or.inl hc)
      · exact Or.inl (Or.inr hc)
      · exact Or.inr ⟨j, hj, hc⟩

/-- Membership in a traced line, phrased through the per-sample candidates. -/
theorem mem_traceLineFractional (D fx fy tx ty : Int) (c : Int × Int) :
    c ∈ traceLineFractional D fx fy tx ty ↔
      (stepsFor D (tx - fx) (ty - fy) ≠ 0 ∧
        ∃ i ≤ stepsFor D (tx - fx) (ty - fy),
          c ∈ traceCandidates D fx fy (tx - fx) (ty - fy)
            (stepsFor D (tx - fx) (ty - fy)) i) := by
  simp only [traceLineFractional]
  split_ifs with h0
  · simp [h0]
  · rw [mem_traceFold]
    simp [h0, List.mem_range, Nat.lt_succ_iff]

/-- Sample number step count is invariant under reversing the direction. -/
theorem stepsFor_neg (D dx dy : Int) : stepsFor D (-dx) (-dy) = stepsFor D dx dy := by
  unfold stepsFor
  rw [show 64 * ((-dx) ^ 2 + (-dy) ^ 2) = 64 * (dx ^ 2 + dy ^ 2) by ring]

/-- The candidates of sample s - i of the reversed line are exactly the
candidates of sample i of the forward line: the sample points coincide. -/
theorem traceCandidates_reverse (D fx fy dx dy : Int) (s i : Nat) (hi : i ≤ s) :
    traceCandidates D (fx + dx) (fy + dy) (-dx) (-dy) s (s - i) =
      traceCandidates D fx fy dx dy s i := by
  unfold traceCandidates
  have h1 : (fx + dx) * (s : Int) + (-dx) * ((s - i : Nat) : Int) = fx * s + dx * i := by
    rw [Nat.cast_sub hi]; ring
  have h2 : (fy + dy) * (s : Int) + (-dy) * ((s - i : Nat) : Int) = fy * s + dy * i := by
    rw [Nat.cast_sub hi]; ring
  rw [h1, h2]

/-- C10: the set of grid cells traced from one fractional endpoint to the
other equals the set traced in the opposite direction; the i-th sample of one
direction is the (steps - i)-th sample of the other, with an identical sample
point and hence identical candidate cells, and the step counts agree. -/
theorem C10_trace_line_set_symmetric (D fx fy tx ty : Int) :
    (traceLineFractional D fx fy tx ty).toFinset =
      (traceLineFractional D tx ty fx fy).toFinset := by
  have hs : stepsFor D (fx - tx) (fy - ty) = stepsFor D (tx - fx) (ty - fy) := by
    rw [show fx - tx = -(tx - fx) by ring, show fy - ty = -(ty - fy) by ring, stepsFor_neg]
  ext c
  simp only [List.mem_toFinset]
  rw [mem_traceLineFractional, mem_traceLineFractional, hs]
  constructor
  · rintro ⟨hne, i, hi, hc⟩
    refine ⟨hne, stepsFor D (tx - fx) (ty - fy) - i, Nat.sub_le _ _, ?_⟩
    have hrev := traceCandidates_reverse D fx fy (tx - fx) (ty - fy)
      (stepsFor D (tx - fx) (ty - fy)) i hi
    rw [show fx + (tx - fx) = tx by ring, show fy + (ty - fy) = ty by ring,
      show -(tx - fx) = fx - tx by ring, show -(ty - fy) = fy - ty by ring] at hrev
    rw [hrev]
    exact hc
  · rintro ⟨hne, j, hj, hc⟩
    refine ⟨hne, stepsFor D (tx - fx) (ty - fy) - j, Nat.sub_le _ _, ?_⟩
    have hrev := traceCandidates_reverse D tx ty (fx - tx) (fy - ty)
      (stepsFor D (tx - fx) (ty - fy)) j hj
    rw [show tx + (fx - tx) = fx by ring, show ty + (fy - ty) = fy by ring,
      show -(fx - tx) = tx - fx by ring, show -(fy - ty) = ty - fy by ring] at hrev
    rw [← hrev] at hc
    exact hc


/-- Head unfolding of listMax. -/
theorem listMax_cons (x : Int) (l : List Int) : listMax (x :: l) = max x (listMax l) := rfl

/-- listMax never drops below its zero floor. -/
theorem listMax_nonneg (l : List Int) : 0 ≤ listMax l := by
  induction l with
  | nil => exact le_refl 0
  | cons x rest ih =>
    rw [listMax_cons]
    exact le_max_of_le_right ih

/-- listMax of pointwise maxima splits into the maximum of two listMax. -/
theorem listMax_map_max {α : Type} (l : List α) (f g : α → Int) :
    listMax (l.map fun c => max (f c) (g c)) =
      max (listMax (l.map f)) (listMax (l.map g)) := by
  induction l with
  | nil => simp [listMax]
  | cons c rest ih =>
    simp only [List.map_cons, listMax_cons, ih]
    exact max_max_max_comm _ _ _ _

/-- One terrain step of the getCover fold raises the running bonus to the
maximum of itself and the terrain bonus of the processed cell. -/
theorem getCoverTerrainStep_bonus (attacker target : Position) (g : Grid)
    (mc : CoverInfo) (c : Int × Int) (h : 0 ≤ mc.bonus) :
    (getCoverTerrainStep attacker target g mc c).bonus =
      max mc.bonus (terrainCoverBonus attacker target g c) := by
  simp only [getCoverTerrainStep, terrainCoverBonus]
  split_ifs <;> simp_all <;> omega

/-- One creature step of the getCover fold raises the running bonus to the
maximum of itself and the creature bonus of the processed cell. -/
theorem getCoverCreatureStep_bonus (attacker target : Position) (units : List Unit)
    (mc : CoverInfo) (c : Int × Int) (h : 0 ≤ mc.bonus) :
    (getCoverCreatureStep attacker target units
        (units.find? fun u => u.position.x == attacker.x && u.position.y == attacker.y)
        (units.find? fun u => u.position.x == target.x && u.position.y == target.y)
        mc c).bonus =
      max mc.bonus (creatureCoverBonus attacker target units c) := by
  simp only [getCoverCreatureStep, creatureCoverBonus]
  split_ifs <;> simp_all <;> omega

/-- A terrain step never lowers a nonnegative running bonus below zero. -/
theorem getCoverTerrainStep_bonus_nonneg (attacker target : Position) (g : Grid)
    (mc : CoverInfo) (c : Int × Int) (h : 0 ≤ mc.bonus) :
    0 ≤ (getCoverTerrainStep attacker target g mc c).bonus := by
  rw [getCoverTerrainStep_bonus attacker target g mc c h]
  exact le_max_of_le_left h

/-- A creature step never lowers a nonnegative running bonus below zero. -/
theorem getCoverCreatureStep_bonus_nonneg (attacker target : Position) (units : List Unit)
    (mc : CoverInfo) (c : Int × Int) (h : 0 ≤ mc.bonus) :
    0 ≤ (getCoverCreatureStep attacker target units
        (units.find? fun u => u.position.x == attacker.x && u.position.y == attacker.y)
        (units.find? fun u => u.position.x == target.x && u.position.y == target.y)
        mc c).bonus := by
  rw [getCoverCreatureStep_bonus attacker target units mc c h]
  exact le_max_of_le_left h

/-- The terrain pass of getCover computes the maximum of the starting bonus
and the terrain bonuses of all processed cells. -/
theorem foldl_terrainStep_bonus (attacker target : Position) (g : Grid)
    (cells : List (Int × Int)) (mc : CoverInfo) (h : 0 ≤ mc.bonus) :
    (cells.foldl (getCoverTerrainStep attacker target g) mc).bonus =
      max mc.bonus (listMax (cells.map (terrainCoverBonus attacker target g))) := by
  induction cells generalizing mc with
  | nil =>
    simp only [List.foldl_nil, List.map_nil]
    have : listMax [] = 0 := rfl
    rw [this]
    omega
  | cons c rest ih =>
    rw [List.foldl_cons, ih _ (getCoverTerrainStep_bonus_nonneg attacker target g mc c h),
      getCoverTerrainStep_bonus attacker target g mc c h, List.map_cons, listMax_cons,
      max_assoc]

/-- The creature pass of getCover computes the maximum of the starting bonus
and the creature bonuses of all processed cells. -/
theorem foldl_creatureStep_bonus (attacker target : Position) (units : List Unit)
    (cells : List (Int × Int)) (mc : CoverInfo) (h : 0 ≤ mc.bonus) :
    (cells.foldl (getCoverCreatureStep attacker target units
        (units.find? fun u => u.position.x == attacker.x && u.position.y == attacker.y)
        (units.find? fun u => u.position.x == target.x && u.position.y == target.y)) mc).bonus =
      max mc.bonus (listMax (cells.map (creatureCoverBonus attacker target units))) := by
  induction cells generalizing mc with
  | nil =>
    simp only [List.foldl_nil, List.map_nil]
    have : listMax [] = 0 := rfl
    rw [this]
    omega
  | cons c rest ih =>
    rw [List.foldl_cons, ih _ (getCoverCreatureStep_bonus_nonneg attacker target units mc c h),
      getCoverCreatureStep_bonus attacker target units mc c h, List.map_cons, listMax_cons,
      max_assoc]

/-- The bonus getCover returns is the maximum over the traced cells of the
per-cell source bonus. -/
theorem getCover_bonus_eq_listMax (attacker target : Position) (g : Grid)
    (units : List Unit) :
    (getCover attacker target g units).bonus =
      listMax ((coverPathCells attacker target).map
        (coverSourceBonus attacker target g units)) := by
  simp only [getCover]
  rw [foldl_creatureStep_bonus attacker target units _ _
    (by
      rw [foldl_terrainStep_bonus attacker target g _ _ (le_refl 0)]
      exact le_max_of_le_left (le_refl 0))]
  rw [foldl_terrainStep_bonus attacker target g _ _ (le_refl 0)]
  rw [max_eq_right (listMax_nonneg _)]
  rw [show coverSourceBonus attacker target g units = fun c =>
    max (terrainCoverBonus attacker target g c) (creatureCoverBonus attacker target units c)
    from rfl]
  rw [listMax_map_max]

/-- Every per-cell source bonus lies in the defined tiers. -/
theorem coverTier_coverSourceBonus (attacker target : Position) (g : Grid)
    (units : List Unit) (c : Int × Int) :
    coverTier (coverSourceBonus attacker target g units c) := by
  simp only [coverSourceBonus, terrainCoverBonus, creatureCoverBonus, coverTier]
  split_ifs <;> omega

/-- listMax of tier values is a tier value. -/
theorem coverTier_listMax (l : List Int) (h : ∀ x ∈ l, coverTier x) :
    coverTier (listMax l) := by
  induction l with
  | nil => exact Or.inl rfl
  | cons x rest ih =>
    have hx := h x (List.mem_cons_self x rest)
    have hr := ih fun y hy => h y (List.mem_cons_of_mem _ hy)
    rw [listMax_cons]
    simp only [coverTier] at hx hr ⊢
    rcases hx with rfl | rfl | rfl | rfl <;>
      rcases hr with h1 | h1 | h1 | h1 <;> rw [h1] <;> omega

/-- C3: the bonus of the cover resolver equals the single highest per-cell
source bonus found along the center-to-center path (sources never add), that
bonus is one of 0, 1, 2, 4, and the effect-aware wrapper also only ever
returns one of 0, 1, 2, 4. -/
theorem C3_cover_bonus_is_single_highest_tier (attacker target : Position) (g : Grid)
    (units : List Unit) (targetUnit : Option Unit) :
    (getCover attacker target g units).bonus =
      listMax ((coverPathCells attacker target).map
        (coverSourceBonus attacker target g units)) ∧
    coverTier (getCover attacker target g units).bonus ∧
    coverTier (getCoverWithEffects attacker target g units targetUnit).bonus := by
  have hmain := getCover_bonus_eq_listMax attacker target g units
  have htier : coverTier (getCover attacker target g units).bonus := by
    rw [hmain]
    exact coverTier_listMax _ fun x hx => by
      rcases List.mem_map.mp hx with ⟨c, _, rfl⟩
      exact coverTier_coverSourceBonus attacker target g units c
  refine ⟨hmain, htier, ?_⟩
  unfold getCoverWithEffects
  cases targetUnit with
  | none => exact htier
  | some tu =>
    by_cases he : (tu.statusEffects.any fun e => e.type == EffectKind.takingCoverEnhanced) = true
    · simp only [he, if_pos]
      cases hct : (getCover attacker target g units).type
      · exact Or.inr (Or.inr (Or.inl rfl))
      · exact Or.inr (Or.inr (Or.inl rfl))
      · exact Or.inr (Or.inr (Or.inr rfl))
      · exact htier
    · simp only [he, if_neg, Bool.false_eq_true, not_false_eq_true]
      exact htier

end Grudge
